import Mathlib

/-!
Verification of the podion-ai backend core against its specification.

The definitions below are a shallow embedding of the Python sources:

* `backend/routes/deepgram_transcription.py` — transcript normalization
  (`extract_words_with_speakers`), word rounding policy;
* `backend/utils/job_manager.py` — the in-memory `JobManager`
  (status updates, cancellation, age-based cleanup);
* `backend/utils/circuit_breaker.py` — `ServiceCircuitBreaker`;
* `backend/utils/rate_limiter.py` — `AdvancedRateLimiter.check_rate_limit`;
* `backend/routes/podcast_workflow.py` — the synchronous pipeline endpoint
  `process_complete_podcast_workflow`, the background continuation
  `process_workflow_background` and the submit endpoint
  `quick_upload_and_process`.

Python floats are modelled as exact rationals (`ℚ`); Python `round` is
modelled as round-half-to-even on rationals.  Python dictionaries coming
from JSON are modelled by the inductive `JValue`, together with the
operations the source performs on them (`.get`, subscripting, `len`,
truthiness, iteration), each of which may raise, modelled with `Except`.
Wall-clock instants are passed explicitly as parameters.
-/

namespace Podion

/-- A JSON-like Python value as it appears in vendor responses. -/
inductive JValue where
  | null
  | bool (b : Bool)
  | num (q : ℚ)
  | str (s : String)
  | arr (xs : List JValue)
  | obj (fields : List (String × JValue))

/-- Python truthiness of a `JValue` (`None`, `False`, `0`, `""`, `[]`, `{}`
are falsy). -/
def JValue.truthy : JValue → Bool
  | .null => false
  | .bool b => b
  | .num q => decide (q ≠ 0)
  | .str s => decide (s ≠ "")
  | .arr xs => !xs.isEmpty
  | .obj fs => !fs.isEmpty

/-- First-match association-list lookup (Python dict field lookup). -/
def alistLookup (fs : List (String × JValue)) (k : String) : Option JValue :=
  match fs with
  | [] => none
  | (k', v) :: rest => if k' = k then some v else alistLookup rest k

/-- Python `d.get(k)`: `None` when the key is missing; raises
(`AttributeError`) when the receiver is not a dict. -/
def pyGet (v : JValue) (k : String) : Except Unit JValue :=
  match v with
  | .obj fs => .ok ((alistLookup fs k).getD .null)
  | _ => .error ()

/-- Python `d.get(k, default)`; raises when the receiver is not a dict. -/
def pyGetD (v : JValue) (k : String) (dflt : JValue) : Except Unit JValue :=
  match v with
  | .obj fs => .ok ((alistLookup fs k).getD dflt)
  | _ => .error ()

/-- Python `d[k]` for a string key: field lookup on a dict (raises
`KeyError` when missing), raises `TypeError` on any other receiver. -/
def pySubscript (v : JValue) (k : String) : Except Unit JValue :=
  match v with
  | .obj fs =>
    match alistLookup fs k with
    | some x => .ok x
    | none => .error ()
  | _ => .error ()

/-- Python `len` (lists, strings and dicts only; raises otherwise). -/
def pyLen (v : JValue) : Except Unit ℕ :=
  match v with
  | .arr xs => .ok xs.length
  | .str s => .ok s.length
  | .obj fs => .ok fs.length
  | _ => .error ()

/-- Python `v[i]` for a non-negative integer index. -/
def pyIndex (v : JValue) (i : ℕ) : Except Unit JValue :=
  match v with
  | .arr xs =>
    match xs.get? i with
    | some x => .ok x
    | none => .error ()
  | .str s =>
    match s.toList.get? i with
    | some c => .ok (.str (String.mk [c]))
    | none => .error ()
  | _ => .error ()

/-- Python iteration `for x in v`: list elements, characters of a string,
keys of a dict; raises on non-iterables. -/
def pyIter (v : JValue) : Except Unit (List JValue) :=
  match v with
  | .arr xs => .ok xs
  | .str s => .ok (s.toList.map fun c => .str (String.mk [c]))
  | .obj fs => .ok (fs.map fun kv => .str kv.1)
  | _ => .error ()

/-!
Mathlib marks the core arithmetic on `ℚ` (`Rat.mul`, `Rat.sub`, …)
irreducible, which stops the kernel from evaluating it on closed terms.
The embedding therefore computes with the `mkRat`/`num`/`den` primitives
below; `qsub_eq`, `qadd_eq` and `qmul_eq` (proved with the theorems at the
end of the file) identify them with the standard operations.
-/

/-- Computable subtraction on `ℚ`. -/
def qsub (a b : ℚ) : ℚ := mkRat (a.num * b.den - b.num * a.den) (a.den * b.den)

/-- Computable addition on `ℚ`. -/
def qadd (a b : ℚ) : ℚ := mkRat (a.num * b.den + b.num * a.den) (a.den * b.den)

/-- Computable multiplication on `ℚ`. -/
def qmul (a b : ℚ) : ℚ := mkRat (a.num * b.num) (a.den * b.den)

/-- Floor of a rational, computed by flooring integer division. -/
def ratFloor (x : ℚ) : ℤ :=
  Int.fdiv x.num x.den

/-- Round-half-to-even of a rational to an integer (Python `round(x)`
semantics).  The fractional part `frac = x - ⌊x⌋` satisfies
`0 ≤ frac < 1`; the comparisons `frac < 1/2` and `frac > 1/2` are done
on the numerator and (positive) denominator so the kernel can evaluate
them. -/
def roundHalfEven (x : ℚ) : ℤ :=
  let f : ℤ := ratFloor x
  let frac : ℚ := qsub x (f : ℚ)
  if 2 * frac.num < (frac.den : ℤ) then f
  else if (frac.den : ℤ) < 2 * frac.num then f + 1
  else if f % 2 = 0 then f else f + 1

/-- Python `round(x, n)` on an (exactly represented) float: scale by
`10 ^ n`, round half to even, scale back. -/
def pyRound (x : ℚ) (n : ℕ) : ℚ :=
  mkRat (roundHalfEven (qmul x (mkRat (10 ^ n) 1))) (10 ^ n)

/-- Python `round(v, n)` applied to a `JValue`: numbers (and bools, which
are ints in Python) round; every other value raises `TypeError`. -/
def pyRoundJ (v : JValue) (n : ℕ) : Except Unit ℚ :=
  match v with
  | .num q => .ok (pyRound q n)
  | .bool b => .ok (pyRound (if b then 1 else 0) n)
  | _ => .error ()

/-- The pydantic model `WordTimestamp` of `deepgram_transcription.py`
(`word: str, start: float, end: float, confidence: float,
speaker: Optional[int]`). -/
structure WordTimestamp where
  word : String
  start : ℚ
  «end» : ℚ
  confidence : ℚ
  speaker : Option ℤ
deriving DecidableEq, Repr

/-- pydantic validation of the `word: str` field (a non-string raises a
`ValidationError`, which the source's catch-all handler absorbs). -/
def coerceStr (v : JValue) : Except Unit String :=
  match v with
  | .str s => .ok s
  | _ => .error ()

/-- pydantic validation of the `speaker: Optional[int]` field. -/
def coerceSpeaker (v : JValue) : Except Unit (Option ℤ) :=
  match v with
  | .null => .ok none
  | .num q => if q.den = 1 then .ok (some q.num) else .error ()
  | .bool b => .ok (some (if b then 1 else 0))
  | _ => .error ()

/-- One iteration of the word loop of `extract_words_with_speakers`:
`WordTimestamp(word=word_data.get("punctuated_word", word_data.get("word", "")),
start=round(word_data.get("start", 0.0), 2), end=round(word_data.get("end", 0.0), 2),
confidence=round(word_data.get("confidence", 0.0), 3),
speaker=word_data.get("speaker"))`. -/
def mkWordTimestamp (word_data : JValue) : Except Unit WordTimestamp := do
  let inner ← pyGetD word_data "word" (.str "")
  let wv ← pyGetD word_data "punctuated_word" inner
  let w ← coerceStr wv
  let sv ← pyGetD word_data "start" (.num 0)
  let s ← pyRoundJ sv 2
  let ev ← pyGetD word_data "end" (.num 0)
  let e ← pyRoundJ ev 2
  let cv ← pyGetD word_data "confidence" (.num 0)
  let c ← pyRoundJ cv 3
  let spv ← pyGet word_data "speaker"
  let sp ← coerceSpeaker spv
  .ok ⟨w, s, e, c, sp⟩

/-- The word-accumulation loop (`for word_data in alternative["words"]`).
An exception in any iteration propagates (carrying no data of its own). -/
def wordLoop (items : List JValue) : Except Unit (List WordTimestamp) :=
  match items with
  | [] => .ok []
  | wd :: rest => do
    let w ← mkWordTimestamp wd
    let ws ← wordLoop rest
    .ok (w :: ws)

/-- The `try`-block body of `extract_words_with_speakers`
(`deepgram_transcription.py` lines 251–283), translated line by line.
An `.error tr` result models an exception raised while the local variable
`transcript` holds `tr` (it is `""` until the assignment at line 267). -/
def extractBody (deepgram_response : JValue) : Except JValue (JValue × List WordTimestamp) :=
  -- transcript = ""; words = []
  -- if not deepgram_response.get("results"): return "", []
  match pyGet deepgram_response "results" with
  | .error _ => .error (.str "")
  | .ok res =>
    if ¬res.truthy then .ok (.str "", [])
    else
      -- results = deepgram_response["results"]  (same value: key present)
      -- if not results.get("channels") or len(results["channels"]) == 0: return "", []
      match pyGet res "channels" with
      | .error _ => .error (.str "")
      | .ok chs =>
        if ¬chs.truthy then .ok (.str "", [])
        else
          match pySubscript res "channels" with
          | .error _ => .error (.str "")
          | .ok chs' =>
            match pyLen chs' with
            | .error _ => .error (.str "")
            | .ok n =>
              if n = 0 then .ok (.str "", [])
              else
                -- channel = results["channels"][0]
                match pyIndex chs' 0 with
                | .error _ => .error (.str "")
                | .ok channel =>
                  -- if not channel.get("alternatives") or len(...) == 0: return "", []
                  match pyGet channel "alternatives" with
                  | .error _ => .error (.str "")
                  | .ok alts =>
                    if ¬alts.truthy then .ok (.str "", [])
                    else
                      match pySubscript channel "alternatives" with
                      | .error _ => .error (.str "")
                      | .ok alts' =>
                        match pyLen alts' with
                        | .error _ => .error (.str "")
                        | .ok m =>
                          if m = 0 then .ok (.str "", [])
                          else
                            -- alternative = channel["alternatives"][0]
                            match pyIndex alts' 0 with
                            | .error _ => .error (.str "")
                            | .ok alternative =>
                              -- transcript = alternative.get("transcript", "")
                              match pyGetD alternative "transcript" (.str "") with
                              | .error _ => .error (.str "")
                              | .ok transcript =>
                                -- if alternative.get("words"): for word_data in ...
                                match pyGet alternative "words" with
                                | .error _ => .error transcript
                                | .ok wv =>
                                  if ¬wv.truthy then .ok (transcript, [])
                                  else
                                    match pySubscript alternative "words" with
                                    | .error _ => .error transcript
                                    | .ok wv' =>
                                      match pyIter wv' with
                                      | .error _ => .error transcript
                                      | .ok items =>
                                        match wordLoop items with
                                        | .error _ => .error transcript
                                        | .ok words => .ok (transcript, words)

/-- `extract_words_with_speakers` (`deepgram_transcription.py` 248–287):
the `try` body wrapped in the catch-all `except Exception` handler that
returns `(transcript, [])` — the function is total and never raises. -/
def extract_words_with_speakers (deepgram_response : JValue) :
    JValue × List WordTimestamp :=
  match extractBody deepgram_response with
  | .ok r => r
  | .error transcript => (transcript, [])

/-- A well-formed vendor response with one channel, one alternative,
transcript `t` and a single word entry with the given raw fields. -/
def oneWordResponse (t w : String) (s e c : ℚ) : JValue :=
  .obj [("results", .obj [("channels", .arr [
     .obj [("alternatives", .arr [
       .obj [("transcript", .str t),
             ("words", .arr [
               .obj [("word", .str w), ("start", .num s), ("end", .num e),
                     ("confidence", .num c)]])]])]])])]

/-! ## Job manager (`backend/utils/job_manager.py`) -/

/-- `JobStatus` enum. -/
inductive JobStatus where
  | queued | processing | completed | failed | cancelled
deriving DecidableEq, Repr

/-- The terminal statuses `[COMPLETED, FAILED, CANCELLED]`. -/
def JobStatus.isTerminal : JobStatus → Bool
  | .completed => true
  | .failed => true
  | .cancelled => true
  | _ => false

/-- `JobStep` enum. -/
inductive JobStep where
  | uploading | downloading | transcribing | generating_seo | saving | completed
deriving DecidableEq, Repr

/-- The pydantic model `JobInfo`.  `metadata` and `result_data` are
modelled as string association lists (their contents are opaque to the
job manager). -/
structure JobInfo where
  job_id : String
  user_id : String
  workspace_id : Option String := none
  filename : String
  upload_id : Option String := none
  status : JobStatus
  current_step : JobStep
  progress : ℤ
  created_at : ℚ
  updated_at : ℚ
  started_at : Option ℚ := none
  completed_at : Option ℚ := none
  error_message : Option String := none
  result_data : Option (List (String × String)) := none
  metadata : List (String × String) := []
deriving DecidableEq, Repr

/-- The `JobManager` state: `self.jobs` (dict job_id → JobInfo) and
`self.user_jobs` (dict user_id → [job_ids]), both modelled as
insertion-ordered association lists. -/
structure JobManager where
  jobs : List (String × JobInfo)
  user_jobs : List (String × List String)
deriving DecidableEq, Repr

/-- Generic first-match association lookup (Python `dict.get`). -/
def lookupA {α : Type} (l : List (String × α)) (k : String) : Option α :=
  match l with
  | [] => none
  | (k', v) :: rest => if k' = k then some v else lookupA rest k

/-- Replace the value stored under the first occurrence of key `k`
(Python in-place mutation of `self.jobs[k]` / `self.user_jobs[k]`). -/
def setA {α : Type} (l : List (String × α)) (k : String) (v : α) :
    List (String × α) :=
  match l with
  | [] => []
  | (k', v') :: rest =>
    if k' = k then (k', v) :: rest else (k', v') :: setA rest k v

/-- Delete the first occurrence of key `k` (Python `del d[k]`). -/
def eraseA {α : Type} (l : List (String × α)) (k : String) :
    List (String × α) :=
  match l with
  | [] => []
  | (k', v') :: rest =>
    if k' = k then rest else (k', v') :: eraseA rest k

/-- Python truthiness of an optional string (`if error_message:` — both
`None` and `""` are falsy). -/
def optStrTruthy : Option String → Bool
  | none => false
  | some s => s ≠ ""

/-- Python truthiness of an optional dict (`if result_data:` — both
`None` and `{}` are falsy). -/
def optDictTruthy : Option (List (String × String)) → Bool
  | none => false
  | some l => !l.isEmpty

/-- Python truthiness of an optional timestamp (`if not job.started_at:`
— `None` and `0.0` are falsy). -/
def optTimeTruthy : Option ℚ → Bool
  | none => false
  | some q => q ≠ 0

/-- The field mutations `update_job_status` performs on the job it found
(`job_manager.py` 119–136). -/
def applyJobUpdate (job : JobInfo) (now : ℚ) (status : JobStatus)
    (current_step : Option JobStep) (progress : Option ℤ)
    (error_message : Option String)
    (result_data : Option (List (String × String))) : JobInfo :=
  let job := { job with status := status, updated_at := now }
  let job := match current_step with
    | some c => { job with current_step := c }   -- `if current_step:` (enum members are truthy)
    | none => job
  let job := match progress with
    | some p => { job with progress := p }       -- `if progress is not None:`
    | none => job
  let job := if optStrTruthy error_message then { job with error_message := error_message } else job
  let job := if optDictTruthy result_data then { job with result_data := result_data } else job
  if status = .processing ∧ ¬optTimeTruthy job.started_at then
    { job with started_at := some now }
  else if status.isTerminal then
    { job with completed_at := some now }
  else job

/-- `JobManager.update_job_status` (`job_manager.py` 105–139): look the
job up; if absent return `False`; otherwise apply the field mutations and
return `True`.  There is no terminal-state guard in the source. -/
def update_job_status (jm : JobManager) (now : ℚ) (job_id : String)
    (status : JobStatus) (current_step : Option JobStep := none)
    (progress : Option ℤ := none) (error_message : Option String := none)
    (result_data : Option (List (String × String)) := none) :
    JobManager × Bool :=
  match lookupA jm.jobs job_id with
  | none => (jm, false)
  | some job =>
    let job' := applyJobUpdate job now status current_step progress error_message result_data
    ({ jm with jobs := setA jm.jobs job_id job' }, true)

/-- `JobManager.cancel_job` (`job_manager.py` 150–166): fails (and leaves
the state untouched) when the job is unknown, not owned by the caller,
or already terminal; otherwise delegates to `update_job_status` with
`CANCELLED`. -/
def cancel_job (jm : JobManager) (now : ℚ) (job_id : String)
    (user_id : String) : JobManager × Bool :=
  match lookupA jm.jobs job_id with
  | none => (jm, false)
  | some job =>
    if job.user_id ≠ user_id then (jm, false)
    else if job.status.isTerminal then (jm, false)
    else ((update_job_status jm now job_id .cancelled).1, true)

/-- Removal of one collected job inside the second loop of
`cleanup_old_jobs`: drop the id from the owner's `user_jobs` list
(first occurrence, guarded by membership) and delete the job entry. -/
def removeJobOnce (jm : JobManager) (job_id : String) : JobManager :=
  match lookupA jm.jobs job_id with
  | none => jm
  | some job =>
    let uj := match lookupA jm.user_jobs job.user_id with
      | none => jm.user_jobs
      | some l => setA jm.user_jobs job.user_id (l.erase job_id)
    { jobs := eraseA jm.jobs job_id, user_jobs := uj }

/-- `JobManager.cleanup_old_jobs` (`job_manager.py` 186–206): collect the
ids of all jobs with `created_at < now - max_age_hours * 3600`
(regardless of status), remove each collected job from the owner's
`user_jobs` list and from `jobs`, and return how many were collected. -/
def cleanup_old_jobs (jm : JobManager) (now : ℚ) (max_age_hours : ℚ) :
    JobManager × ℕ :=
  let cutoff := qsub now (qmul max_age_hours 3600)
  let jobs_to_remove :=
    (jm.jobs.filter fun kv => decide (kv.2.created_at < cutoff)).map (·.1)
  (jobs_to_remove.foldl removeJobOnce jm, jobs_to_remove.length)

/-- Well-formedness of the per-user index: every stored id list is
duplicate-free (guaranteed by `create_job`, which appends each fresh id
once). -/
def UserWF (s : JobManager) : Prop :=
  ∀ u l, lookupA s.user_jobs u = some l → l.Nodup

/-- An old job (created at 100) still mid-processing, owned by
`"alice"`. -/
def jobOldAlice : JobInfo :=
  { job_id := "j0", user_id := "alice", filename := "old.mp3",
    status := .processing, current_step := .transcribing, progress := 40,
    created_at := 100, updated_at := 200, started_at := some 150 }

/-- A fresh queued job (created at 10000), owned by `"alice"`. -/
def jobNewAlice : JobInfo :=
  { job_id := "j1", user_id := "alice", filename := "new.mp3",
    status := .queued, current_step := .uploading, progress := 0,
    created_at := 10000, updated_at := 10000 }

/-- A manager holding one stale and one fresh job for `"alice"`. -/
def jmMixed : JobManager :=
  ⟨[("j0", jobOldAlice), ("j1", jobNewAlice)], [("alice", ["j0", "j1"])]⟩

/-- A job that has already reached the terminal status `completed`,
owned by `"alice"`. -/
def jobDoneAlice : JobInfo :=
  { job_id := "j1", user_id := "alice", filename := "a.mp3",
    status := .completed, current_step := .completed, progress := 100,
    created_at := 10, updated_at := 20, started_at := some 12,
    completed_at := some 20 }

/-- A manager state holding only `jobDoneAlice`. -/
def jmDone : JobManager := ⟨[("j1", jobDoneAlice)], [("alice", ["j1"])]⟩

/-! ## Circuit breaker (`backend/utils/circuit_breaker.py`) -/

/-- `CircuitState` enum. -/
inductive CircuitState where
  | closed | «open» | half_open
deriving DecidableEq, Repr

/-- The mutable fields of `ServiceCircuitBreaker` together with its
configuration. -/
structure ServiceCircuitBreaker where
  failure_threshold : ℕ
  recovery_timeout : ℚ
  failure_count : ℕ
  last_failure_time : Option ℚ := none
  state : CircuitState
deriving DecidableEq, Repr

/-- `ServiceCircuitBreaker.__init__`. -/
def SCB.init (failure_threshold : ℕ) (recovery_timeout : ℚ) :
    ServiceCircuitBreaker :=
  { failure_threshold := failure_threshold
    recovery_timeout := recovery_timeout
    failure_count := 0
    last_failure_time := none
    state := .closed }

/-- Behaviour of the wrapped callable when it is actually invoked:
either it returns, or it raises one of the breaker's expected
exceptions. -/
inductive CallOutcome where
  | success | failure
deriving DecidableEq, Repr

/-- Observable result of `ServiceCircuitBreaker.call`: the underlying
function was invoked and returned, it was invoked and its exception was
re-raised, or the call was rejected up front with the
"Circuit breaker is OPEN" exception (the function was *not* invoked). -/
inductive CallResult where
  | returned | raised | rejectedOpen
deriving DecidableEq, Repr

/-- `_should_attempt_reset`: `self.last_failure_time and
time.time() - self.last_failure_time >= self.recovery_timeout`
(a `last_failure_time` of `None` — or the float `0.0`, both falsy — means
no reset attempt). -/
def should_attempt_reset (cb : ServiceCircuitBreaker) (now : ℚ) : Bool :=
  match cb.last_failure_time with
  | none => false
  | some t => t ≠ 0 ∧ cb.recovery_timeout ≤ qsub now t

/-- `_on_success`: reset the failure counter and close the circuit. -/
def on_success (cb : ServiceCircuitBreaker) : ServiceCircuitBreaker :=
  { cb with failure_count := 0, state := .closed }

/-- `_on_failure`: bump the counter, stamp the failure time, and open the
circuit once the threshold is reached. -/
def on_failure (cb : ServiceCircuitBreaker) (now : ℚ) : ServiceCircuitBreaker :=
  let cb := { cb with failure_count := cb.failure_count + 1,
                      last_failure_time := some now }
  if cb.failure_threshold ≤ cb.failure_count then { cb with state := .«open» }
  else cb

/-- `ServiceCircuitBreaker.call` (`circuit_breaker.py` 45–62), with the
wrapped callable abstracted by its `CallOutcome`: reject fast while open
and the recovery timeout has not elapsed; otherwise (moving to half-open
if we were open) invoke the callable and apply `_on_success` /
`_on_failure`. -/
def SCB.call (cb : ServiceCircuitBreaker) (now : ℚ) (outcome : CallOutcome) :
    ServiceCircuitBreaker × CallResult :=
  if cb.state = .«open» ∧ ¬should_attempt_reset cb now then
    (cb, .rejectedOpen)
  else
    let cb := if cb.state = .«open» then { cb with state := .half_open } else cb
    match outcome with
    | .success => (on_success cb, .returned)
    | .failure => (on_failure cb now, .raised)

/-- Run a sequence of calls, each given by its wall-clock instant and the
behaviour the wrapped callable would have on that call. -/
def SCB.run (cb : ServiceCircuitBreaker) (calls : List (ℚ × CallOutcome)) :
    ServiceCircuitBreaker :=
  calls.foldl (fun s c => (SCB.call s c.1 c.2).1) cb

/-- Reachability invariant of a breaker driven at positive wall-clock
instants: away from `closed`, the failure count has reached the threshold
and a positive failure time is on record. -/
def scbInvB (cb : ServiceCircuitBreaker) : Bool :=
  (cb.state = .closed) ||
    (decide (cb.failure_threshold ≤ cb.failure_count) &&
     (match cb.last_failure_time with
      | some t => decide (0 < t)
      | none => false))

/-- A breaker (threshold 3, recovery 30) that has just opened after three
failures, the last at instant 10. -/
def cbOpenSample : ServiceCircuitBreaker :=
  { failure_threshold := 3, recovery_timeout := 30, failure_count := 3,
    last_failure_time := some 10, state := .«open» }

/-! ## Rate limiter (`backend/utils/rate_limiter.py`) -/

/-- One tier's ceilings from `AdvancedRateLimiter.default_limits`. -/
structure RateLimits where
  requests_per_minute : ℕ
  requests_per_hour : ℕ
  requests_per_day : ℕ
deriving DecidableEq, Repr

/-- `self.default_limits.get(user_tier, self.default_limits["free_user"])`:
the four configured tiers, any unknown tier falling back to the free
tier. -/
def default_limits (user_tier : String) : RateLimits :=
  if user_tier = "free_user" then ⟨5, 50, 200⟩
  else if user_tier = "premium_user" then ⟨20, 500, 2000⟩
  else if user_tier = "enterprise_user" then ⟨100, 2000, 10000⟩
  else if user_tier = "admin" then ⟨1000, 10000, 50000⟩
  else ⟨5, 50, 200⟩

/-- The Redis counter store, modelled as an association list from key to
integer count (missing key reads as 0, as in the source's
`await self.redis_client.get(key) or 0`).  Key TTLs only garbage-collect
expired buckets and are not modelled. -/
abbrev RedisStore : Type := List (String × ℕ)

/-- Read a counter (0 when absent). -/
def storeGet (store : RedisStore) (key : String) : ℕ :=
  (lookupA store key).getD 0

/-- `INCRBY key w` (creates the key at `w` when absent). -/
def storeIncr (store : RedisStore) (key : String) (w : ℕ) : RedisStore :=
  match lookupA store key with
  | some v => setA store key (v + w)
  | none => store ++ [(key, w)]

/-- `f"rate_limit:{user_id}:{endpoint}:minute:{current_time // 60}"`. -/
def minuteKey (user_id endpoint : String) (now : ℕ) : String :=
  "rate_limit:" ++ user_id ++ ":" ++ endpoint ++ ":minute:" ++ toString (now / 60)

/-- `f"rate_limit:{user_id}:{endpoint}:hour:{current_time // 3600}"`. -/
def hourKey (user_id endpoint : String) (now : ℕ) : String :=
  "rate_limit:" ++ user_id ++ ":" ++ endpoint ++ ":hour:" ++ toString (now / 3600)

/-- `f"rate_limit:{user_id}:{endpoint}:day:{current_time // 86400}"`. -/
def dayKey (user_id endpoint : String) (now : ℕ) : String :=
  "rate_limit:" ++ user_id ++ ":" ++ endpoint ++ ":day:" ++ toString (now / 86400)

/-- The dictionary returned by `check_rate_limit`, with `None` for the
keys a given branch does not set. -/
structure RateLimitResult where
  allowed : Bool
  limit_type : Option String := none
  current_usage : Option ℕ := none
  limit : Option ℕ := none
  reset_time : Option ℕ := none
  retry_after : Option ℕ := none
  usage : Option (ℕ × ℕ × ℕ) := none
  remaining : Option (ℕ × ℕ × ℕ) := none
  error : Option String := none
deriving DecidableEq, Repr

/-- Availability of the Redis backend during one `check_rate_limit` call:
healthy, raising on the reads, or raising on the increment pipeline. -/
inductive RedisBehavior where
  | ok | failGet (msg : String) | failIncr (msg : String)
deriving DecidableEq, Repr

/-- `AdvancedRateLimiter.check_rate_limit` (`rate_limiter.py` 42–143).
The three window counters are read; the request is rejected at the first
window where `count + weight > limit` (minute, then hour, then day);
otherwise all three counters are incremented and the request is allowed.
Any exception raised by the Redis operations is caught by the
surrounding `except` and turned into `{"allowed": True, "error": …}`
(fail open). -/
def check_rate_limit (store : RedisStore) (behavior : RedisBehavior)
    (user_id endpoint : String) (user_tier : String := "free_user")
    (request_weight : ℕ := 1) (now : ℕ) : RedisStore × RateLimitResult :=
  match behavior with
  | .failGet msg => (store, { allowed := true, error := some msg })
  | _ =>
    let limits := default_limits user_tier
    let mkey := minuteKey user_id endpoint now
    let hkey := hourKey user_id endpoint now
    let dkey := dayKey user_id endpoint now
    let minute_count := storeGet store mkey
    let hour_count := storeGet store hkey
    let day_count := storeGet store dkey
    let weighted_request := request_weight
    if limits.requests_per_minute < minute_count + weighted_request then
      (store, { allowed := false, limit_type := some "minute",
                current_usage := some minute_count,
                limit := some limits.requests_per_minute,
                reset_time := some ((now / 60 + 1) * 60),
                retry_after := some (60 - now % 60) })
    else if limits.requests_per_hour < hour_count + weighted_request then
      (store, { allowed := false, limit_type := some "hour",
                current_usage := some hour_count,
                limit := some limits.requests_per_hour,
                reset_time := some ((now / 3600 + 1) * 3600),
                retry_after := some (3600 - now % 3600) })
    else if limits.requests_per_day < day_count + weighted_request then
      (store, { allowed := false, limit_type := some "day",
                current_usage := some day_count,
                limit := some limits.requests_per_day,
                reset_time := some ((now / 86400 + 1) * 86400),
                retry_after := some (86400 - now % 86400) })
    else
      match behavior with
      | .failIncr msg => (store, { allowed := true, error := some msg })
      | _ =>
        let store := storeIncr store mkey weighted_request
        let store := storeIncr store hkey weighted_request
        let store := storeIncr store dkey weighted_request
        (store,
         { allowed := true
           usage := some (minute_count + weighted_request,
                          hour_count + weighted_request,
                          day_count + weighted_request)
           remaining := some
             (limits.requests_per_minute - (minute_count + weighted_request),
              limits.requests_per_hour - (hour_count + weighted_request),
              limits.requests_per_day - (day_count + weighted_request)) })

/-- Thread a list of requests (all with the same user, endpoint, tier and
weight, all against a healthy backend) through the limiter at the given
instants, collecting each decision. -/
def runRequests (store : RedisStore) (user_id endpoint user_tier : String)
    (request_weight : ℕ) (times : List ℕ) : RedisStore × List RateLimitResult :=
  match times with
  | [] => (store, [])
  | t :: rest =>
    let (store', r) :=
      check_rate_limit store .ok user_id endpoint user_tier request_weight t
    let (store'', rs) :=
      runRequests store' user_id endpoint user_tier request_weight rest
    (store'', r :: rs)

/-! ## Pipeline orchestrator (`backend/routes/podcast_workflow.py`)

Collaborator calls (storage upload, Deepgram, Gemini, Firestore) are
abstracted by their outcome: a value, or a raised exception.  A Python
exception is either a FastAPI `HTTPException` or any other exception. -/

/-- A raised Python exception: FastAPI's `HTTPException` (re-raised as-is
by the endpoint) or any other exception. -/
inductive PyError where
  | httpExc (code : ℕ) (detail : String)
  | exc (msg : String)
deriving DecidableEq, Repr

/-- `str(e)` (for an `HTTPException`, starlette renders
`"{status_code}: {detail}"`). -/
def errStr : PyError → String
  | .httpExc c d => toString c ++ ": " ++ d
  | .exc m => m

/-- The dictionary returned by `step_1_upload_to_storage`. -/
structure StorageResult where
  storage_path : String
  public_url : String
  file_size : ℕ
  filename : String
  original_filename : String
deriving DecidableEq, Repr

/-- `step_1_upload_to_storage`: delegate to the storage collaborator,
wrapping any exception into `HTTPException(500, "Upload step failed: …")`
(the `except Exception` clause also catches `HTTPException`s). -/
def step_1_upload_to_storage (upload : Except PyError StorageResult) :
    Except PyError StorageResult :=
  match upload with
  | .ok r => .ok r
  | .error e => .error (.httpExc 500 ("Upload step failed: " ++ errStr e))

/-- The dictionary built by the transcription step
(`transcript`, `words`, `word_count`, `speakers_detected`, `model`,
`features`).  `transcript` is whatever `JValue` the normalizer returned. -/
structure TranscriptionData where
  transcript : JValue
  words : List WordTimestamp
  word_count : ℕ
  speakers_detected : ℕ
  model : String
  features : List String

/-- `len(set(w.get("speaker") for w in words_data if w.get("speaker") is
not None))`: count of distinct non-null speaker indices. -/
def speakersDetected (words : List WordTimestamp) : ℕ :=
  ((words.filterMap (·.speaker)).dedup).length

/-- `step_2_transcribe_audio`: call the transcription vendor, normalize
with `extract_words_with_speakers`, and package the result; any raised
exception becomes `HTTPException(500, "Transcription step failed: …")`. -/
def step_2_transcribe_audio (deepgram : Except PyError JValue) :
    Except PyError TranscriptionData :=
  match deepgram with
  | .error e => .error (.httpExc 500 ("Transcription step failed: " ++ errStr e))
  | .ok response =>
    let (transcript, words) := extract_words_with_speakers response
    .ok { transcript := transcript
          words := words
          word_count := words.length
          speakers_detected := speakersDetected words
          model := "nova-2"
          features := ["word_timestamps", "speaker_diarization",
                       "smart_format", "punctuation"] }

/-- The structured output of the content-generation collaborator, as read
off by the `.get(…, default)` calls of `step_3_generate_seo_content`. -/
structure GeminiResult where
  seo_title : String
  show_notes : List String
  blog_post : List (String × String)
  social_media : List (String × String)
deriving DecidableEq, Repr

/-- `len(s.split())`: number of whitespace-separated words. -/
def pyWordCount (s : String) : ℕ :=
  ((s.split (· = ' ')).filter (· ≠ "")).length

/-- The dictionary built by `step_3_generate_seo_content` (SEO fields
plus `generation_metadata`). -/
structure SeoData where
  seo_title : String
  show_notes : List String
  blog_post : List (String × String)
  social_media : List (String × String)
  transcript_length : ℕ
  show_notes_count : ℕ
  blog_post_word_count : ℕ
  social_platforms : ℕ
deriving DecidableEq, Repr

/-- `step_3_generate_seo_content`: build the `SEOGenerationRequest`
(whose pydantic `transcript: str` field rejects a non-string transcript),
call Gemini, and package the result; any raised exception becomes
`HTTPException(500, "SEO generation step failed: …")`.  The exact text of
a pydantic validation error is abbreviated to `"ValidationError"`. -/
def step_3_generate_seo_content (transcript : JValue)
    (gemini : Except PyError GeminiResult) : Except PyError SeoData :=
  match transcript with
  | .str t =>
    match gemini with
    | .error e => .error (.httpExc 500 ("SEO generation step failed: " ++ errStr e))
    | .ok g =>
      .ok { seo_title := g.seo_title
            show_notes := g.show_notes
            blog_post := g.blog_post
            social_media := g.social_media
            transcript_length := t.length
            show_notes_count := g.show_notes.length
            blog_post_word_count := pyWordCount ((lookupA g.blog_post "body").getD "")
            social_platforms := g.social_media.length }
  | _ => .error (.httpExc 500 ("SEO generation step failed: " ++ "ValidationError"))

/-- The dictionary returned by `step_4_save_to_firestore`. -/
structure FirestoreData where
  doc_id : String
  saved_document : JValue
  collection : String

/-- `step_4_save_to_firestore`: persist the combined results and re-fetch
the saved document; any raised exception becomes
`HTTPException(500, "Firestore save step failed: …")`. -/
def step_4_save_to_firestore (save : Except PyError String)
    (fetchDoc : Except PyError JValue) : Except PyError FirestoreData :=
  match save with
  | .error e => .error (.httpExc 500 ("Firestore save step failed: " ++ errStr e))
  | .ok doc_id =>
    match fetchDoc with
    | .error e => .error (.httpExc 500 ("Firestore save step failed: " ++ errStr e))
    | .ok doc => .ok { doc_id := doc_id, saved_document := doc, collection := "podcasts" }

/-- The `WorkflowStep` flag object of `podcast_workflow.py`. -/
structure StepsCompleted where
  upload : Bool := false
  transcription : Bool := false
  seo_generation : Bool := false
  firestore_save : Bool := false
deriving DecidableEq, Repr

/-- The summary dict placed in `transcription_info` on full success. -/
structure TranscriptionSummary where
  transcript_length : ℕ
  word_count : ℕ
  speakers_detected : ℕ
  model : String
deriving DecidableEq, Repr

/-- `transcription_info` holds the full stage dict on the partial-failure
path and the summary dict on the success path. -/
inductive TranscriptionInfoVal where
  | full (d : TranscriptionData)
  | summary (s : TranscriptionSummary)

/-- The summary dict placed in `seo_info` on full success. -/
structure SeoSummary where
  seo_title : String
  show_notes_count : ℕ
  blog_post_generated : Bool
  social_platforms : ℕ
deriving DecidableEq, Repr

/-- `seo_info` holds the full stage dict or the success summary. -/
inductive SeoInfoVal where
  | full (d : SeoData)
  | summary (s : SeoSummary)
deriving DecidableEq, Repr

/-- The summary dict placed in `firestore_info` on full success. -/
structure FirestoreSummary where
  doc_id : String
  collection : String
deriving DecidableEq, Repr

/-- `firestore_info` holds the full stage dict or the success summary. -/
inductive FirestoreInfoVal where
  | full (d : FirestoreData)
  | summary (s : FirestoreSummary)

/-- The `WorkflowResponse` pydantic model. -/
structure WorkflowResponse where
  success : Bool
  doc_id : Option String := none
  processing_time : Option ℚ := none
  steps_completed : Option StepsCompleted := none
  storage_info : Option StorageResult := none
  transcription_info : Option TranscriptionInfoVal := none
  seo_info : Option SeoInfoVal := none
  firestore_info : Option FirestoreInfoVal := none
  saved_document : Option JValue := none
  error : Option String := none

/-- The endpoint's local result containers at a given point of execution
(`steps`, `storage_info`, `transcription_info`, `seo_info`,
`firestore_info`; each container starts as the falsy `{}`, modelled
`none`). -/
structure PartialState where
  steps : StepsCompleted := {}
  storage_info : Option StorageResult := none
  transcription_info : Option TranscriptionData := none
  seo_info : Option SeoData := none
  firestore_info : Option FirestoreData := none

/-- Outcomes of the collaborator calls made during one run of the
synchronous endpoint, plus the request data it validates.  `elapsed`
stands for `time.time() - workflow_start_time` at response-building
time. -/
structure WorkflowEnv where
  filename : Option String
  upload : Except PyError StorageResult
  seek : Except PyError Unit
  deepgram : Except PyError JValue
  gemini : Except PyError GeminiResult
  save : Except PyError String
  fetchDoc : Except PyError JValue
  elapsed : ℚ

/-- The `try` body of `process_complete_podcast_workflow`
(`podcast_workflow.py` 434–514).  An exception is paired with the
containers' contents at the moment it is raised.  The
`validate_audio_file` guard at line 443 tests the truthiness of the
*dict* returned by `validate_audio_file`, which is never empty, so that
branch cannot raise and is not represented. -/
def endpointBody (env : WorkflowEnv) : Except (PyError × PartialState) WorkflowResponse :=
  let st0 : PartialState := {}
  if ¬optStrTruthy env.filename then
    .error (.httpExc 400 "No filename provided", st0)
  else
    match step_1_upload_to_storage env.upload with
    | .error e => .error (e, st0)
    | .ok storage =>
      let st1 : PartialState :=
        { st0 with steps := { st0.steps with upload := true },
                   storage_info := some storage }
      match env.seek with
      | .error e => .error (e, st1)
      | .ok _ =>
        match step_2_transcribe_audio env.deepgram with
        | .error e => .error (e, st1)
        | .ok td =>
          let st2 : PartialState :=
            { st1 with steps := { st1.steps with transcription := true },
                       transcription_info := some td }
          match step_3_generate_seo_content td.transcript env.gemini with
          | .error e => .error (e, st2)
          | .ok sd =>
            let st3 : PartialState :=
              { st2 with steps := { st2.steps with seo_generation := true },
                         seo_info := some sd }
            match step_4_save_to_firestore env.save env.fetchDoc with
            | .error e => .error (e, st3)
            | .ok fd =>
              let st4 : PartialState :=
                { st3 with steps := { st3.steps with firestore_save := true },
                           firestore_info := some fd }
              -- `len(transcription_info["transcript"])` in the success
              -- response raises `TypeError` on a non-sized transcript
              match pyLen td.transcript with
              | .error _ => .error (.exc "TypeError", st4)
              | .ok tlen =>
                .ok { success := true
                      doc_id := some fd.doc_id
                      processing_time := some (pyRound env.elapsed 2)
                      steps_completed := some st4.steps
                      storage_info := some storage
                      transcription_info := some (.summary
                        ⟨tlen, td.word_count, td.speakers_detected, td.model⟩)
                      seo_info := some (.summary
                        ⟨sd.seo_title, sd.show_notes.length,
                         !sd.blog_post.isEmpty, sd.social_media.length⟩)
                      firestore_info := some (.summary ⟨fd.doc_id, "podcasts"⟩)
                      saved_document := some fd.saved_document }

/-- `process_complete_podcast_workflow` (`podcast_workflow.py` 399–539):
run the body; re-raise an `HTTPException` unchanged
(`except HTTPException: raise`); turn any other exception into the
partial-results `WorkflowResponse` (`except Exception`). -/
def process_complete_podcast_workflow (env : WorkflowEnv) :
    Except PyError WorkflowResponse :=
  match endpointBody env with
  | .ok r => .ok r
  | .error (.httpExc c d, _) => .error (.httpExc c d)
  | .error (.exc m, ps) =>
    .ok { success := false
          processing_time := some (pyRound env.elapsed 2)
          steps_completed := some ps.steps
          storage_info := ps.storage_info
          transcription_info := ps.transcription_info.map .full
          seo_info := ps.seo_info.map .full
          firestore_info := ps.firestore_info.map .full
          error := some ("Workflow failed: " ++ m) }

/-- One observable operation of the background continuation or of the
submit endpoint.  `jobTrackerUpdate` and `cancellationCheck` are the
operations the Job Tracker contract speaks about; the source of
`process_workflow_background` contains no call to the job manager, so no
execution path emits them. -/
inductive BgEvent where
  | uploadCall
  | downloadFile
  | transcribeCall
  | generateSeoCall
  | firestoreSaveCall
  | tempFileCleanup
  | jobTrackerUpdate
  | cancellationCheck
deriving DecidableEq, Repr

/-- Outcomes of the collaborator calls of one background run. -/
structure BgEnv where
  download : Except PyError Unit
  deepgram : Except PyError JValue
  gemini : Except PyError GeminiResult
  save : Except PyError String

/-- `process_workflow_background` (`podcast_workflow.py` 273–397):
download the uploaded file, transcribe, generate, persist, with the
temp-file cleanup in the inner `finally` and every exception swallowed
by the outer `except` (the task only logs).  Returns the trace of
operations performed and the saved `doc_id` on success. -/
def process_workflow_background (env : BgEnv) : List BgEvent × Option String :=
  match env.download with
  | .error _ => ([.downloadFile], none)
  | .ok _ =>
    match env.deepgram with
    | .error _ => ([.downloadFile, .transcribeCall, .tempFileCleanup], none)
    | .ok response =>
      let (transcript, _words) := extract_words_with_speakers response
      match transcript with
      | .str _ =>
        match env.gemini with
        | .error _ =>
          ([.downloadFile, .transcribeCall, .generateSeoCall, .tempFileCleanup], none)
        | .ok _ =>
          match env.save with
          | .error _ =>
            ([.downloadFile, .transcribeCall, .generateSeoCall,
              .firestoreSaveCall, .tempFileCleanup], none)
          | .ok doc_id =>
            ([.downloadFile, .transcribeCall, .generateSeoCall,
              .firestoreSaveCall, .tempFileCleanup], some doc_id)
      | _ =>
        -- `SEOGenerationRequest(transcript=…)` rejects a non-string
        -- transcript before Gemini is called
        ([.downloadFile, .transcribeCall, .tempFileCleanup], none)

/-- The storage summary embedded in a `QuickUploadResponse`. -/
structure QuickStorageInfo where
  storage_path : String
  public_url : String
  file_size : ℕ
  filename : String
deriving DecidableEq, Repr

/-- The `QuickUploadResponse` pydantic model. -/
structure QuickUploadResponse where
  success : Bool
  upload_id : Option String := none
  message : Option String := none
  storage_info : Option QuickStorageInfo := none
  processing_started : Option Bool := none
  error : Option String := none
deriving DecidableEq, Repr

/-- `quick_upload_and_process` (`podcast_workflow.py` 541–598): run only
the upload step synchronously, then hand the remaining work to
`background_tasks.add_task(process_workflow_background, …)`.  Returns
the response, the trace of operations performed *synchronously*, and
whether the background task was scheduled.  The `except Exception`
handler also catches the upload step's `HTTPException`. -/
def quick_upload_and_process (upload : Except PyError StorageResult)
    (now : ℕ) (user_id : String) :
    QuickUploadResponse × List BgEvent × Bool :=
  let upload_id := "upload_" ++ toString now ++ "_" ++ user_id
  match step_1_upload_to_storage upload with
  | .ok r =>
    ({ success := true
       upload_id := some upload_id
       message := some "File uploaded successfully! Processing started in background."
       storage_info := some ⟨r.storage_path, r.public_url, r.file_size, r.filename⟩
       processing_started := some true },
     [.uploadCall], true)
  | .error e =>
    ({ success := false, error := some ("Quick upload failed: " ++ errStr e) },
     [.uploadCall], false)

/-- A concrete successful upload result. -/
def sampleStorage : StorageResult :=
  { storage_path := "users/u1/podcasts/file.mp3"
    public_url := "https://storage/file.mp3"
    file_size := 1024
    filename := "file.mp3"
    original_filename := "episode.mp3" }

/-- Endpoint environment in which upload and transcription succeed and
the content-generation call raises a plain exception. -/
def envSeoFails : WorkflowEnv :=
  { filename := some "episode.mp3"
    upload := .ok sampleStorage
    seek := .ok ()
    deepgram := .ok (oneWordResponse "hello world" "Hello" 1 2 (mkRat 9 10))
    gemini := .error (.exc "boom")
    save := .ok "doc1"
    fetchDoc := .ok (.obj [])
    elapsed := 0 }

/-- A background environment in which every collaborator call succeeds. -/
def bgOkEnv : BgEnv :=
  { download := .ok ()
    deepgram := .ok (oneWordResponse "hello world" "Hello" 1 2 (mkRat 9 10))
    gemini := .ok ⟨"Title", ["note"], [("body", "text")], [("twitter", "t")]⟩
    save := .ok "doc9" }

/-! ## Shared helper lemmas -/

theorem truthy_obj_cons (kv : String × JValue) (rest : List (String × JValue)) :
    (JValue.obj (kv :: rest)).truthy = true := rfl

theorem truthy_arr_cons (x : JValue) (xs : List JValue) :
    (JValue.arr (x :: xs)).truthy = true := rfl

theorem lookupA_setA {α : Type} (l : List (String × α)) (k : String) (v w : α)
    (h : lookupA l k = some w) : lookupA (setA l k v) k = some v := by
  induction l with
  | nil => simp [lookupA] at h
  | cons kv rest ih =>
    by_cases hk : kv.1 = k
    · simp [lookupA, setA, hk]
    · simp only [lookupA, setA, hk, if_false] at h ⊢
      exact ih h

theorem applyJobUpdate_status (job : JobInfo) (now : ℚ) (st : JobStatus)
    (cs : Option JobStep) (p : Option ℤ) (em : Option String)
    (rd : Option (List (String × String))) :
    (applyJobUpdate job now st cs p em rd).status = st := by
  unfold applyJobUpdate
  cases cs <;> cases p <;> dsimp only <;> split_ifs <;> rfl

theorem qsub_eq (a b : ℚ) : qsub a b = a - b := by
  have ha : (a.den : ℚ) ≠ 0 := Nat.cast_ne_zero.2 a.den_nz
  have hb : (b.den : ℚ) ≠ 0 := Nat.cast_ne_zero.2 b.den_nz
  rw [qsub, Rat.mkRat_eq_div]
  conv_rhs => rw [← Rat.num_div_den a, ← Rat.num_div_den b]
  rw [div_sub_div _ _ ha hb]
  push_cast
  ring_nf

theorem qadd_eq (a b : ℚ) : qadd a b = a + b := by
  have ha : (a.den : ℚ) ≠ 0 := Nat.cast_ne_zero.2 a.den_nz
  have hb : (b.den : ℚ) ≠ 0 := Nat.cast_ne_zero.2 b.den_nz
  rw [qadd, Rat.mkRat_eq_div]
  conv_rhs => rw [← Rat.num_div_den a, ← Rat.num_div_den b]
  rw [div_add_div _ _ ha hb]
  push_cast
  ring_nf

theorem qmul_eq (a b : ℚ) : qmul a b = a * b := by
  have ha : (a.den : ℚ) ≠ 0 := Nat.cast_ne_zero.2 a.den_nz
  have hb : (b.den : ℚ) ≠ 0 := Nat.cast_ne_zero.2 b.den_nz
  rw [qmul, Rat.mkRat_eq_div]
  conv_rhs => rw [← Rat.num_div_den a, ← Rat.num_div_den b]
  rw [div_mul_div_comm]
  push_cast
  ring_nf

/-! ## C6 — transcript normalization tolerates empty responses -/

/-- C6: for every input dictionary whose `results` entry is missing or
falsy, or whose `results.channels` entry is missing or falsy (this
includes the empty channel list), or whose first channel has a missing,
falsy or empty `alternatives` list, `extract_words_with_speakers` returns
the pair `("", [])`; and whenever the try-body raises, the catch-all
handler still returns `(transcript-so-far, [])` — the function is total
and never raises. -/
theorem c6_normalization_empty_total :
    (∀ fs : List (String × JValue),
      ((alistLookup fs "results").getD .null).truthy = false →
      extract_words_with_speakers (.obj fs) = (.str "", []))
  ∧ (∀ fs rfs : List (String × JValue),
      alistLookup fs "results" = some (.obj rfs) →
      ((alistLookup rfs "channels").getD .null).truthy = false →
      extract_words_with_speakers (.obj fs) = (.str "", []))
  ∧ (∀ (fs rfs cfs : List (String × JValue)) (chrest : List JValue),
      alistLookup fs "results" = some (.obj rfs) →
      alistLookup rfs "channels" = some (.arr (.obj cfs :: chrest)) →
      ((alistLookup cfs "alternatives").getD .null).truthy = false →
      extract_words_with_speakers (.obj fs) = (.str "", []))
  ∧ (∀ resp tr : JValue, extractBody resp = .error tr →
      extract_words_with_speakers resp = (tr, [])) := by
  refine ⟨?_, ?_, ?_, ?_⟩
  · intro fs h
    simp [extract_words_with_speakers, extractBody, pyGet, h]
  · intro fs rfs h1 h2
    cases rfs with
    | nil =>
      simp only [extract_words_with_speakers, extractBody, pyGet, h1, Option.getD_some]
      simp [JValue.truthy]
    | cons kv rest =>
      simp only [extract_words_with_speakers, extractBody, pyGet, h1, Option.getD_some,
        truthy_obj_cons, h2]
      simp
  · intro fs rfs cfs chrest h1 h2 h3
    cases rfs with
    | nil => simp [alistLookup] at h2
    | cons kv rest =>
      simp only [extract_words_with_speakers, extractBody, pyGet, pySubscript, pyLen,
        pyIndex, h1, h2, Option.getD_some, truthy_obj_cons, truthy_arr_cons,
        List.length_cons, List.getElem?_cons_zero]
      simp [h3]
  · intro resp tr h
    simp [extract_words_with_speakers, h]

/-- C6 witness: concrete empty-shaped responses evaluated through the
theorem. -/
theorem c6_witness :
    extract_words_with_speakers (.obj [("results", .null)]) = (.str "", [])
  ∧ extract_words_with_speakers
      (.obj [("results", .obj [("channels",
        .arr [.obj [("alternatives", .arr [])]])])]) = (.str "", []) :=
  ⟨c6_normalization_empty_total.1 [("results", .null)] rfl,
   c6_normalization_empty_total.2.2.1 _ _ [("alternatives", .arr [])] []
     rfl rfl rfl⟩

/-! ## C9 — timestamp and confidence rounding -/

/-- C9: every word entry built by the normalizer stores the raw `start`
and `end` rounded to 2 decimal places and the raw `confidence` rounded
to 3 decimal places — both for the word constructor itself on arbitrary
numeric inputs and through the full normalizer on a one-word response —
and on the spec's concrete inputs `12.3456` is reported as `12.35` and
`0.12345` as `0.123`. -/
theorem c9_word_rounding :
    (∀ (w : String) (s e c : ℚ),
      mkWordTimestamp (.obj [("word", .str w), ("start", .num s),
        ("end", .num e), ("confidence", .num c)]) =
      .ok ⟨w, pyRound s 2, pyRound e 2, pyRound c 3, none⟩)
  ∧ (∀ (t w : String) (s e c : ℚ),
      extract_words_with_speakers (oneWordResponse t w s e c) =
        (.str t, [⟨w, pyRound s 2, pyRound e 2, pyRound c 3, none⟩]))
  ∧ pyRound (mkRat 123456 10000) 2 = mkRat 1235 100
  ∧ pyRound (mkRat 12345 100000) 3 = mkRat 123 1000 :=
  ⟨fun _ _ _ _ => rfl, fun _ _ _ _ _ => rfl, by decide, by decide⟩

/-! ## C5 — rate-limit window admission -/

/-- C5: a request is admitted iff it fits all three windows
simultaneously; a request over the minute ceiling is rejected with
`limit_type = "minute"` and `retry_after = 60 - now % 60 ≤ 60`; a request
that fits the minute and hour windows but not the day window is rejected
citing `"day"`; and for a free-tier user the 6th weight-1 request in the
same 60-second bucket is rejected with `limit_type = "minute"` after five
admissions. -/
theorem c5_rate_limit_windows :
    (∀ (store : RedisStore) (u e tier : String) (w now : ℕ),
      ((check_rate_limit store .ok u e tier w now).2.allowed = true) ↔
        (storeGet store (minuteKey u e now) + w ≤ (default_limits tier).requests_per_minute
         ∧ storeGet store (hourKey u e now) + w ≤ (default_limits tier).requests_per_hour
         ∧ storeGet store (dayKey u e now) + w ≤ (default_limits tier).requests_per_day))
  ∧ (∀ (store : RedisStore) (u e tier : String) (w now : ℕ),
      (default_limits tier).requests_per_minute < storeGet store (minuteKey u e now) + w →
      (check_rate_limit store .ok u e tier w now).2 =
        { allowed := false, limit_type := some "minute",
          current_usage := some (storeGet store (minuteKey u e now)),
          limit := some (default_limits tier).requests_per_minute,
          reset_time := some ((now / 60 + 1) * 60),
          retry_after := some (60 - now % 60) } ∧ 60 - now % 60 ≤ 60)
  ∧ (∀ (store : RedisStore) (u e tier : String) (w now : ℕ),
      storeGet store (minuteKey u e now) + w ≤ (default_limits tier).requests_per_minute →
      storeGet store (hourKey u e now) + w ≤ (default_limits tier).requests_per_hour →
      (default_limits tier).requests_per_day < storeGet store (dayKey u e now) + w →
      (check_rate_limit store .ok u e tier w now).2.allowed = false ∧
      (check_rate_limit store .ok u e tier w now).2.limit_type = some "day")
  ∧ ((runRequests [] "u" "ep" "free_user" 1 [120, 120, 120, 120, 120, 120]).2.map
       (·.allowed) = [true, true, true, true, true, false]
     ∧ (runRequests [] "u" "ep" "free_user" 1 [120, 120, 120, 120, 120, 120]).2.getLast? =
         some { allowed := false, limit_type := some "minute", current_usage := some 5,
                limit := some 5, reset_time := some 180, retry_after := some 60 }) := by
  refine ⟨?_, ?_, ?_, ?_, ?_⟩
  · intro store u e tier w now
    simp only [check_rate_limit]
    split_ifs with h1 h2 h3 <;> simp_all
  · intro store u e tier w now h
    constructor
    · simp only [check_rate_limit]
      split_ifs with h1 <;> simp_all
    · omega
  · intro store u e tier w now hm hh hd
    simp only [check_rate_limit]
    split_ifs with h1 h2 <;> simp_all <;> omega
  · decide
  · decide

/-- C5 witness: the minute- and day-rejection clauses applied at concrete
stores. -/
theorem c5_witness :
    ((check_rate_limit [(minuteKey "u" "ep" 0, 5)] .ok "u" "ep" "free_user" 1 0).2 =
       { allowed := false, limit_type := some "minute", current_usage := some 5,
         limit := some 5, reset_time := some 60, retry_after := some 60 }
     ∧ 60 - 0 % 60 ≤ 60)
  ∧ ((check_rate_limit [(dayKey "u" "ep" 0, 200)] .ok "u" "ep" "free_user" 1 0).2.allowed = false
     ∧ (check_rate_limit [(dayKey "u" "ep" 0, 200)] .ok "u" "ep" "free_user" 1 0).2.limit_type
         = some "day") :=
  ⟨c5_rate_limit_windows.2.1 [(minuteKey "u" "ep" 0, 5)] "u" "ep" "free_user" 1 0 (by decide),
   c5_rate_limit_windows.2.2.1 [(dayKey "u" "ep" 0, 200)] "u" "ep" "free_user" 1 0
     (by decide) (by decide) (by decide)⟩

/-! ## C8 — the rate limiter fails open on backend errors -/

/-- C8: when the Redis reads raise, `check_rate_limit` returns
`allowed = true` with the error recorded and the store untouched; when
the increment pipeline raises on an admissible request, the check also
returns `allowed = true` — the policy fails open instead of rejecting or
propagating. -/
theorem c8_fail_open :
    ∀ (store : RedisStore) (u e tier : String) (w now : ℕ) (msg : String),
      ((check_rate_limit store (.failGet msg) u e tier w now).2.allowed = true)
    ∧ ((check_rate_limit store (.failGet msg) u e tier w now).2.error = some msg)
    ∧ ((check_rate_limit store (.failGet msg) u e tier w now).1 = store)
    ∧ (storeGet store (minuteKey u e now) + w ≤ (default_limits tier).requests_per_minute →
       storeGet store (hourKey u e now) + w ≤ (default_limits tier).requests_per_hour →
       storeGet store (dayKey u e now) + w ≤ (default_limits tier).requests_per_day →
       (check_rate_limit store (.failIncr msg) u e tier w now).2.allowed = true) := by
  intro store u e tier w now msg
  refine ⟨rfl, rfl, rfl, ?_⟩
  intro hm hh hd
  simp only [check_rate_limit]
  split_ifs with h1 h2 h3
  · exact absurd h1 (by omega)
  · exact absurd h2 (by omega)
  · exact absurd h3 (by omega)
  · rfl

/-- C8 witness: a concrete unavailable backend on both failure modes. -/
theorem c8_witness :
    ((check_rate_limit [] (.failGet "down") "u" "ep" "free_user" 1 0).2.allowed = true)
  ∧ ((check_rate_limit [] (.failIncr "down") "u" "ep" "free_user" 1 0).2.allowed = true) :=
  ⟨(c8_fail_open [] "u" "ep" "free_user" 1 0 "down").1,
   (c8_fail_open [] "u" "ep" "free_user" 1 0 "down").2.2.2 (by decide) (by decide) (by decide)⟩

/-! ## C2 — terminal job status is *not* sticky -/

/-- C2 counterexample: `jmDone` holds job `"j1"` with terminal status
`completed`, yet `update_job_status` happily sets it back to
`processing` and reports success — the update is neither rejected nor a
no-op, refuting the claim that terminal status is sticky. -/
theorem c2_counterexample :
    (update_job_status jmDone 30 "j1" .processing).2 = true
  ∧ (lookupA (update_job_status jmDone 30 "j1" .processing).1.jobs "j1").map (·.status)
      = some .processing := by
  constructor <;> decide

/-- C2 (amended): `update_job_status` rejects only unknown job ids
(returning the state unchanged and `false`); for an existing job it
always returns `true` and overwrites the status with the requested
value, even when the job is already in a terminal state — terminal
status is not sticky under `update`. -/
theorem c2_amended_update_overwrites :
    ∀ (jm : JobManager) (now : ℚ) (id : String) (st : JobStatus)
      (cs : Option JobStep) (p : Option ℤ) (em : Option String)
      (rd : Option (List (String × String))),
      (lookupA jm.jobs id = none →
        update_job_status jm now id st cs p em rd = (jm, false))
    ∧ (∀ j, lookupA jm.jobs id = some j →
        (update_job_status jm now id st cs p em rd).2 = true
        ∧ (lookupA (update_job_status jm now id st cs p em rd).1.jobs id).map (·.status)
            = some st) := by
  intro jm now id st cs p em rd
  constructor
  · intro h; simp [update_job_status, h]
  · intro j h
    refine ⟨by simp [update_job_status, h], ?_⟩
    simp only [update_job_status, h]
    rw [lookupA_setA _ _ _ j h]
    simp [applyJobUpdate_status]

/-- C2 witness: the amended theorem applied to an unknown id and to a
terminal job being overwritten with `failed`. -/
theorem c2_witness :
    update_job_status jmDone 30 "zzz" .processing = (jmDone, false)
  ∧ (update_job_status jmDone 30 "j1" .failed).2 = true
  ∧ (lookupA (update_job_status jmDone 30 "j1" .failed).1.jobs "j1").map (·.status)
      = some .failed :=
  ⟨(c2_amended_update_overwrites jmDone 30 "zzz" .processing none none none none).1 rfl,
   ((c2_amended_update_overwrites jmDone 30 "j1" .failed none none none none).2
      jobDoneAlice rfl).1,
   ((c2_amended_update_overwrites jmDone 30 "j1" .failed none none none none).2
      jobDoneAlice rfl).2⟩

/-! ## C7 — cancel by a non-owner or on a terminal job is a rejected no-op -/

/-- C7: a cancel request by a caller who does not own the job, or against
a job already in a terminal state, returns `false` and leaves the whole
manager state (hence every field of every job) unchanged. -/
theorem c7_cancel_guard :
    ∀ (jm : JobManager) (now : ℚ) (id u : String) (j : JobInfo),
      lookupA jm.jobs id = some j →
      (j.user_id ≠ u ∨ j.status.isTerminal = true) →
      cancel_job jm now id u = (jm, false) := by
  intro jm now id u j h hcase
  simp only [cancel_job, h]
  rcases hcase with hne | hterm
  · simp [hne]
  · split_ifs with h1 <;> simp_all

/-- C7 witness: a non-owner (`"bob"`) and the owner on an
already-completed job both fail without touching the state. -/
theorem c7_witness :
    cancel_job jmDone 30 "j1" "bob" = (jmDone, false)
  ∧ cancel_job jmDone 30 "j1" "alice" = (jmDone, false) :=
  ⟨c7_cancel_guard jmDone 30 "j1" "bob" jobDoneAlice rfl (Or.inl (by decide)),
   c7_cancel_guard jmDone 30 "j1" "alice" jobDoneAlice rfl (Or.inr (by decide))⟩

/-! ## C4 — circuit breaker state machine -/

theorem run_failures (ts : List ℚ) : ∀ cb : ServiceCircuitBreaker,
    cb.state = .closed →
    cb.failure_count + ts.length = cb.failure_threshold →
    ts ≠ [] →
    (SCB.run cb (ts.map (fun t => (t, .failure)))).state = .«open» ∧
    (SCB.run cb (ts.map (fun t => (t, .failure)))).failure_count = cb.failure_threshold := by
  induction ts with
  | nil => intro cb _ _ habs; exact absurd rfl habs
  | cons t rest ih =>
    intro cb hclosed hcount _
    have hstep : SCB.run cb (((t :: rest).map (fun t => (t, CallOutcome.failure)))) =
        SCB.run (SCB.call cb t .failure).1 (rest.map (fun t => (t, .failure))) := rfl
    rw [hstep]
    have hnotopen : ¬(cb.state = .«open» ∧ ¬should_attempt_reset cb t) := by
      rw [hclosed]; simp
    by_cases hth : cb.failure_threshold ≤ cb.failure_count + 1
    · -- the breaker opens on this very call; rest must be empty
      have hrest : rest = [] := by
        cases rest with
        | nil => rfl
        | cons r rs => simp [List.length] at hcount; omega
      subst hrest
      have hcall : (SCB.call cb t .failure).1 =
          { cb with failure_count := cb.failure_count + 1,
                    last_failure_time := some t, state := .«open» } := by
        simp only [SCB.call, hnotopen, if_false, hclosed]
        simp [on_failure, hth]
      rw [List.map_nil]
      refine ⟨?_, ?_⟩
      · rw [show SCB.run (SCB.call cb t CallOutcome.failure).1 [] =
            (SCB.call cb t CallOutcome.failure).1 from rfl, hcall]
      · rw [show SCB.run (SCB.call cb t CallOutcome.failure).1 [] =
            (SCB.call cb t CallOutcome.failure).1 from rfl, hcall]
        show cb.failure_count + 1 = cb.failure_threshold
        simp only [List.length_cons, List.length_nil] at hcount
        omega
    · -- not yet at the threshold: state stays closed, recurse
      have hcall : (SCB.call cb t .failure).1 =
          { cb with failure_count := cb.failure_count + 1,
                    last_failure_time := some t } := by
        simp only [SCB.call, hnotopen, if_false, hclosed]
        simp [on_failure, hth, hclosed]
      have hrest : rest ≠ [] := by
        intro h; subst h; simp only [List.length_cons, List.length_nil] at hcount; omega
      have hres := ih (SCB.call cb t .failure).1
        (by rw [hcall]; exact hclosed)
        (by rw [hcall]
            show cb.failure_count + 1 + rest.length = cb.failure_threshold
            simp only [List.length_cons] at hcount
            omega)
        hrest
      rw [hcall] at hres
      rw [hcall]
      exact ⟨hres.1, hres.2⟩

theorem scb_fail_fast (cb : ServiceCircuitBreaker) (now t : ℚ) (o : CallOutcome)
    (hst : cb.state = .«open») (hlast : cb.last_failure_time = some t)
    (hlt : qsub now t < cb.recovery_timeout) :
    SCB.call cb now o = (cb, .rejectedOpen) := by
  have hres : should_attempt_reset cb now = false := by
    simp only [should_attempt_reset, hlast]
    simp only [decide_eq_false_iff_not]
    rintro ⟨-, hle⟩
    exact absurd hle (not_le.2 hlt)
  simp [SCB.call, hst, hres]

theorem scb_halfopen_success (cb : ServiceCircuitBreaker) (now t : ℚ)
    (hst : cb.state = .«open») (hlast : cb.last_failure_time = some t)
    (ht : t ≠ 0) (hge : cb.recovery_timeout ≤ qsub now t) :
    SCB.call cb now .success =
      ({ cb with failure_count := 0, state := .closed }, .returned) := by
  have hres : should_attempt_reset cb now = true := by
    simp [should_attempt_reset, hlast, ht, hge]
  simp [SCB.call, hst, hres, on_success]

theorem scb_halfopen_failure (cb : ServiceCircuitBreaker) (now t : ℚ)
    (hst : cb.state = .«open») (hlast : cb.last_failure_time = some t)
    (ht : t ≠ 0) (hge : cb.recovery_timeout ≤ qsub now t)
    (hfc : cb.failure_threshold ≤ cb.failure_count) :
    SCB.call cb now .failure =
      ({ cb with failure_count := cb.failure_count + 1,
                 last_failure_time := some now, state := .«open» }, .raised) := by
  have hres : should_attempt_reset cb now = true := by
    simp [should_attempt_reset, hlast, ht, hge]
  simp only [SCB.call, hst, hres]
  simp [on_failure, Nat.le_succ_of_le hfc]

theorem scb_inv_preserved (cb : ServiceCircuitBreaker) (now : ℚ) (o : CallOutcome)
    (hnow : 0 < now) (hinv : scbInvB cb = true) :
    scbInvB (SCB.call cb now o).1 = true := by
  by_cases hrej : cb.state = .«open» ∧ ¬should_attempt_reset cb now
  · simp [SCB.call, hrej, hinv]
  · simp only [SCB.call, hrej, if_false]
    cases o with
    | success => simp [on_success, scbInvB]
    | failure =>
      by_cases hopen : cb.state = .«open»
      · have hfc : cb.failure_threshold ≤ cb.failure_count := by
          simp [scbInvB, hopen] at hinv
          exact hinv.1
        simp only [hopen, if_true, reduceIte]
        simp [on_failure, scbInvB, Nat.le_succ_of_le hfc, hnow]
      · simp only [hopen, reduceIte]
        cases hstate : cb.state with
        | closed =>
          simp only [on_failure]
          split_ifs with h
          · simp [scbInvB, h, hnow]
          · simp [scbInvB, hstate]
        | «open» => exact absurd hstate hopen
        | half_open =>
          have hfc : cb.failure_threshold ≤ cb.failure_count := by
            simp [scbInvB, hstate] at hinv
            exact hinv.1
          simp only [on_failure]
          split_ifs with h
          · simp [scbInvB, hnow, h]
          · exact absurd (Nat.le_succ_of_le hfc) h

theorem scb_no_halfopen (cb : ServiceCircuitBreaker) (now : ℚ) (o : CallOutcome)
    (hinv : scbInvB cb = true) :
    (SCB.call cb now o).1.state ≠ .half_open := by
  by_cases hrej : cb.state = .«open» ∧ ¬should_attempt_reset cb now
  · simp [SCB.call, hrej]
  · simp only [SCB.call, hrej, if_false]
    cases o with
    | success => simp [on_success]
    | failure =>
      by_cases hopen : cb.state = .«open»
      · have hfc : cb.failure_threshold ≤ cb.failure_count := by
          simp [scbInvB, hopen] at hinv
          exact hinv.1
        simp only [hopen, reduceIte]
        simp [on_failure, Nat.le_succ_of_le hfc]
      · simp only [hopen, reduceIte]
        cases hstate : cb.state with
        | closed =>
          simp only [on_failure]
          split_ifs with h <;> simp [hstate]
        | «open» => exact absurd hstate hopen
        | half_open =>
          have hfc : cb.failure_threshold ≤ cb.failure_count := by
            simp [scbInvB, hstate] at hinv
            exact hinv.1
          simp only [on_failure]
          split_ifs with h
          · simp
          · exact absurd (Nat.le_succ_of_le hfc) h

/-- C4: (i) starting closed with a zero failure count, `N` consecutive
expected failures leave the breaker open with `failure_count = N`
(closed→open exactly on reaching the threshold); (ii) while open, a call
before the recovery timeout is rejected with the "circuit open" error and
the breaker — and in particular the underlying operation, which is never
invoked — is untouched, whatever the callable would have done; (iii) once
the recovery timeout has elapsed, the call is let through (half-open):
on success the breaker closes and the counter resets, on failure it
re-opens with the failure timer restarted; (iv) the reachability
invariant (open/half-open implies the threshold was reached and a
positive failure instant is recorded) is preserved by every call, and no
call ever leaves the breaker parked in half-open — the half-open state
admits exactly the one trial call that resolves it. -/
theorem c4_circuit_breaker :
    (∀ (ts : List ℚ) (cb : ServiceCircuitBreaker),
      cb.state = .closed →
      cb.failure_count + ts.length = cb.failure_threshold →
      ts ≠ [] →
      (SCB.run cb (ts.map (fun t => (t, .failure)))).state = .«open» ∧
      (SCB.run cb (ts.map (fun t => (t, .failure)))).failure_count = cb.failure_threshold)
  ∧ (∀ (cb : ServiceCircuitBreaker) (now t : ℚ) (o : CallOutcome),
      cb.state = .«open» → cb.last_failure_time = some t →
      qsub now t < cb.recovery_timeout →
      SCB.call cb now o = (cb, .rejectedOpen))
  ∧ (∀ (cb : ServiceCircuitBreaker) (now t : ℚ),
      cb.state = .«open» → cb.last_failure_time = some t → t ≠ 0 →
      cb.recovery_timeout ≤ qsub now t →
      SCB.call cb now .success =
        ({ cb with failure_count := 0, state := .closed }, .returned))
  ∧ (∀ (cb : ServiceCircuitBreaker) (now t : ℚ),
      cb.state = .«open» → cb.last_failure_time = some t → t ≠ 0 →
      cb.recovery_timeout ≤ qsub now t →
      cb.failure_threshold ≤ cb.failure_count →
      SCB.call cb now .failure =
        ({ cb with failure_count := cb.failure_count + 1,
                   last_failure_time := some now, state := .«open» }, .raised))
  ∧ (∀ (cb : ServiceCircuitBreaker) (now : ℚ) (o : CallOutcome),
      0 < now → scbInvB cb = true → scbInvB (SCB.call cb now o).1 = true)
  ∧ (∀ (cb : ServiceCircuitBreaker) (now : ℚ) (o : CallOutcome),
      scbInvB cb = true → (SCB.call cb now o).1.state ≠ .half_open) :=
  ⟨fun ts cb => run_failures ts cb,
   scb_fail_fast, scb_halfopen_success, scb_halfopen_failure,
   scb_inv_preserved, scb_no_halfopen⟩

/-- C4 witness: a threshold-3 breaker opened by three failures, then
rejected fast at instant 20, closed by a successful trial at instant 50,
and re-opened by a failing trial at instant 50. -/
theorem c4_witness :
    ((SCB.run (SCB.init 3 30) ([1, 2, 3].map (fun t => (t, .failure)))).state = .«open»
     ∧ (SCB.run (SCB.init 3 30) ([1, 2, 3].map (fun t => (t, .failure)))).failure_count = 3)
  ∧ SCB.call cbOpenSample 20 .success = (cbOpenSample, .rejectedOpen)
  ∧ SCB.call cbOpenSample 50 .success =
      ({ cbOpenSample with failure_count := 0, state := .closed }, .returned)
  ∧ SCB.call cbOpenSample 50 .failure =
      ({ cbOpenSample with failure_count := 4, last_failure_time := some 50,
                           state := .«open» }, .raised)
  ∧ scbInvB (SCB.call cbOpenSample 20 .success).1 = true
  ∧ (SCB.call cbOpenSample 50 .failure).1.state ≠ .half_open :=
  ⟨c4_circuit_breaker.1 [1, 2, 3] (SCB.init 3 30) rfl rfl (by decide),
   c4_circuit_breaker.2.1 cbOpenSample 20 10 .success rfl rfl (by decide),
   c4_circuit_breaker.2.2.1 cbOpenSample 50 10 rfl rfl (by decide) (by decide),
   c4_circuit_breaker.2.2.2.1 cbOpenSample 50 10 rfl rfl (by decide) (by decide) (by decide),
   c4_circuit_breaker.2.2.2.2.1 cbOpenSample 20 .success (by decide) (by decide),
   c4_circuit_breaker.2.2.2.2.2 cbOpenSample 50 .failure (by decide)⟩

/-! ## C1 — stage failure does not reach the partial-results response -/

/-- C1: in the environment `envSeoFails` — upload succeeds, transcription
succeeds, the content-generation call raises — the synchronous endpoint
does *not* return a `WorkflowResponse` with `success = false` and
`steps_completed = {upload: true, transcription: true, seo_generation:
false, firestore_save: false}` as the specification claims: `step_3`
wraps the exception in `HTTPException(500, …)` and the endpoint's
`except HTTPException: raise` re-raises it, so the caller receives an
HTTP 500 error and the partial results (including the transcription
output) are discarded.  The `except Exception` branch that would build
exactly the claimed response is unreachable for stage failures, because
every step function converts every exception into an `HTTPException`. -/
theorem c1_seo_failure_raises :
    process_complete_podcast_workflow envSeoFails =
      .error (.httpExc 500 "SEO generation step failed: boom") := rfl

/-! ## C3 — the background continuation never touches the job tracker -/

/-- C3 counterexample: on a fully successful background run the trace of
operations is exactly download → transcribe → generate → persist →
temp-file cleanup; it contains no Job Tracker update and no cancellation
check, refuting the claim that the detached continuation updates the Job
Tracker at each stage boundary and checks cancellation before each
stage. -/
theorem c3_counterexample :
    (process_workflow_background bgOkEnv).1 =
      [.downloadFile, .transcribeCall, .generateSeoCall, .firestoreSaveCall,
       .tempFileCleanup]
  ∧ BgEvent.jobTrackerUpdate ∉ (process_workflow_background bgOkEnv).1
  ∧ BgEvent.cancellationCheck ∉ (process_workflow_background bgOkEnv).1 :=
  ⟨rfl, by decide, by decide⟩

/-- C3 (amended): the submit endpoint performs only the upload stage
synchronously — its synchronous trace is always exactly `[uploadCall]` —
and returns an upload identifier, scheduling the remaining stages as a
detached background task exactly when the upload succeeded (on upload
failure it returns `success = false` and schedules nothing); the
detached continuation performs download, transcribe, generate and
persist in that order (every trace is a prefix-closed subsequence of the
full stage sequence), but it never updates the Job Tracker and never
checks for cancellation. -/
theorem c3_amended_background :
    (∀ (upload : Except PyError StorageResult) (now : ℕ) (uid : String),
      (quick_upload_and_process upload now uid).2.1 = [.uploadCall])
  ∧ (∀ (r : StorageResult) (now : ℕ) (uid : String),
      quick_upload_and_process (.ok r) now uid =
        ({ success := true
           upload_id := some ("upload_" ++ toString now ++ "_" ++ uid)
           message := some "File uploaded successfully! Processing started in background."
           storage_info := some ⟨r.storage_path, r.public_url, r.file_size, r.filename⟩
           processing_started := some true },
         [.uploadCall], true))
  ∧ (∀ (e : PyError) (now : ℕ) (uid : String),
      quick_upload_and_process (.error e) now uid =
        ({ success := false
           error := some ("Quick upload failed: " ++
             errStr (.httpExc 500 ("Upload step failed: " ++ errStr e))) },
         [.uploadCall], false))
  ∧ (∀ env : BgEnv,
      BgEvent.jobTrackerUpdate ∉ (process_workflow_background env).1
      ∧ BgEvent.cancellationCheck ∉ (process_workflow_background env).1
      ∧ List.Sublist (process_workflow_background env).1
          [.downloadFile, .transcribeCall, .generateSeoCall, .firestoreSaveCall,
           .tempFileCleanup]) := by
  refine ⟨?_, fun r now uid => rfl, fun e now uid => rfl, ?_⟩
  · intro upload now uid
    cases upload <;> rfl
  · intro env
    rcases env with ⟨download, deepgram, gemini, save⟩
    cases download with
    | error e =>
      have hbg : process_workflow_background ⟨.error e, deepgram, gemini, save⟩ =
          ([.downloadFile], none) := rfl
      rw [hbg]
      exact ⟨by decide, by decide, by decide⟩
    | ok u =>
      cases deepgram with
      | error e =>
        have hbg : process_workflow_background ⟨.ok u, .error e, gemini, save⟩ =
            ([.downloadFile, .transcribeCall, .tempFileCleanup], none) := rfl
        rw [hbg]
        exact ⟨by decide, by decide, by decide⟩
      | ok resp =>
        rcases hx : extract_words_with_speakers resp with ⟨tr, ws⟩
        simp only [process_workflow_background, hx]
        cases tr
        case str s =>
          cases gemini with
          | error e2 =>
            dsimp only
            exact ⟨by decide, by decide, by decide⟩
          | ok g =>
            cases save with
            | error e3 =>
              dsimp only
              exact ⟨by decide, by decide, by decide⟩
            | ok d =>
              dsimp only
              exact ⟨by decide, by decide, by decide⟩
        all_goals dsimp only
        all_goals exact ⟨by decide, by decide, by decide⟩

/-! ## C10 — the cleanup sweep -/

theorem eraseA_of_lookup_none {α : Type} (l : List (String × α)) (k : String)
    (h : lookupA l k = none) : eraseA l k = l := by
  induction l with
  | nil => rfl
  | cons kv rest ih =>
    by_cases hk : kv.1 = k
    · simp [lookupA, hk] at h
    · simp only [lookupA, hk, if_false] at h
      simp only [eraseA, hk, if_false]
      rw [ih h]

theorem removeJobOnce_jobs (s : JobManager) (id : String) :
    (removeJobOnce s id).jobs = eraseA s.jobs id := by
  unfold removeJobOnce
  cases h : lookupA s.jobs id with
  | none => simp [eraseA_of_lookup_none _ _ h]
  | some job => rfl

theorem foldl_removeJobOnce_jobs (ids : List String) : ∀ s : JobManager,
    (ids.foldl removeJobOnce s).jobs = ids.foldl eraseA s.jobs := by
  induction ids with
  | nil => intro s; rfl
  | cons r rest ih =>
    intro s
    simp only [List.foldl_cons]
    rw [ih, removeJobOnce_jobs]

theorem eraseA_sublist {α : Type} (l : List (String × α)) (k : String) :
    List.Sublist (eraseA l k) l := by
  induction l with
  | nil => simp [eraseA]
  | cons kv rest ih =>
    by_cases hk : kv.1 = k
    · simp only [eraseA, hk, if_true, reduceIte]
      exact List.sublist_cons_self kv rest
    · simp only [eraseA, hk, if_false, reduceIte]
      exact List.Sublist.cons₂ kv ih

theorem keys_nodup_eraseA {α : Type} (l : List (String × α)) (k : String)
    (h : (l.map Prod.fst).Nodup) : ((eraseA l k).map Prod.fst).Nodup :=
  h.sublist ((eraseA_sublist l k).map Prod.fst)

theorem eraseA_eq_filter {α : Type} (l : List (String × α)) (k : String)
    (h : (l.map Prod.fst).Nodup) :
    eraseA l k = l.filter (fun kv => kv.1 ≠ k) := by
  induction l with
  | nil => rfl
  | cons kv rest ih =>
    simp only [List.map_cons, List.nodup_cons] at h
    simp only [eraseA, List.filter_cons]
    by_cases hk : kv.1 = k
    · simp only [hk, reduceIte]
      have hdec : (decide (k ≠ k)) = false := by simp
      rw [hdec]
      simp only [Bool.false_eq_true, if_false, reduceIte]
      symm
      rw [List.filter_eq_self]
      intro a ha
      simp only [decide_eq_true_eq]
      intro hak
      exact h.1 (hk ▸ hak ▸ List.mem_map_of_mem Prod.fst ha)
    · simp only [hk, reduceIte]
      have hdec : (decide (kv.1 ≠ k)) = true := by simp [hk]
      rw [hdec]
      simp only [if_true, reduceIte]
      rw [ih h.2]

theorem foldl_eraseA_filter {α : Type} (ids : List String) :
    ∀ l : List (String × α), (l.map Prod.fst).Nodup →
    ids.foldl eraseA l = l.filter (fun kv => kv.1 ∉ ids) := by
  induction ids with
  | nil =>
    intro l _
    simp
  | cons r rest ih =>
    intro l h
    simp only [List.foldl_cons]
    rw [eraseA_eq_filter l r h,
        ih _ (h.sublist ((List.filter_sublist l).map Prod.fst)),
        List.filter_filter]
    apply List.filter_congr
    intro kv _
    simp [List.mem_cons, not_or, Bool.and_comm]

theorem lookupA_mem {α : Type} (l : List (String × α)) (k : String) (v : α)
    (h : lookupA l k = some v) : (k, v) ∈ l := by
  induction l with
  | nil => simp [lookupA] at h
  | cons kv rest ih =>
    by_cases hk : kv.1 = k
    · simp only [lookupA, hk, if_true, reduceIte, Option.some.injEq] at h
      cases kv
      simp_all
    · simp only [lookupA, hk, if_false, reduceIte] at h
      exact List.mem_cons_of_mem _ (ih h)

theorem mem_keys_filter {α : Type} (l : List (String × α)) (P : String × α → Bool)
    (kv : String × α) (h : (l.map Prod.fst).Nodup) (hkv : kv ∈ l) :
    (kv.1 ∈ (l.filter P).map Prod.fst) ↔ P kv = true := by
  constructor
  · intro hin
    rcases List.mem_map.1 hin with ⟨kv', hkv', heq⟩
    rcases List.mem_filter.1 hkv' with ⟨hmem, hP⟩
    have hkveq : kv' = kv := List.inj_on_of_nodup_map h hmem hkv heq
    rw [← hkveq]
    exact hP
  · intro hP
    exact List.mem_map_of_mem Prod.fst (List.mem_filter.2 ⟨hkv, hP⟩)

theorem lookupA_setA_ne {α : Type} (l : List (String × α)) (k u : String) (v : α)
    (h : k ≠ u) : lookupA (setA l k v) u = lookupA l u := by
  induction l with
  | nil => rfl
  | cons kv rest ih =>
    by_cases hk : kv.1 = k
    · simp only [setA, hk, if_true, reduceIte, lookupA]
      rw [if_neg (hk ▸ h), if_neg (hk ▸ h)]
    · simp only [setA, hk, if_false, reduceIte, lookupA]
      by_cases hu : kv.1 = u
      · simp [hu]
      · simp only [hu, if_false, reduceIte]
        exact ih

theorem lookupA_eraseA_ne {α : Type} (l : List (String × α)) (kdel k : String)
    (h : kdel ≠ k) : lookupA (eraseA l kdel) k = lookupA l k := by
  induction l with
  | nil => rfl
  | cons kv rest ih =>
    by_cases hk : kv.1 = kdel
    · simp only [eraseA, hk, if_true, reduceIte, lookupA]
      rw [if_neg (hk ▸ h)]
    · simp only [eraseA, hk, if_false, reduceIte, lookupA]
      by_cases hu : kv.1 = k
      · simp [hu]
      · simp only [hu, if_false, reduceIte]
        exact ih

theorem mem_userList_removeJobOnce (s : JobManager) (id u x : String)
    (h : x ∈ (lookupA (removeJobOnce s id).user_jobs u).getD []) :
    x ∈ (lookupA s.user_jobs u).getD [] := by
  unfold removeJobOnce at h
  cases hjob : lookupA s.jobs id with
  | none => rw [hjob] at h; exact h
  | some job =>
    rw [hjob] at h
    dsimp only at h
    cases huj : lookupA s.user_jobs job.user_id with
    | none => rw [huj] at h; exact h
    | some l =>
      rw [huj] at h
      dsimp only at h
      by_cases hu : job.user_id = u
      · subst hu
        rw [lookupA_setA _ _ _ l huj] at h
        simp only [Option.getD_some] at h
        rw [huj]
        simp only [Option.getD_some]
        exact List.mem_of_mem_erase h
      · rw [lookupA_setA_ne _ _ _ _ hu] at h
        exact h

theorem not_mem_userList_fold (ids : List String) : ∀ (s : JobManager) (u x : String),
    x ∉ (lookupA s.user_jobs u).getD [] →
    x ∉ (lookupA (ids.foldl removeJobOnce s).user_jobs u).getD [] := by
  induction ids with
  | nil => intro s u x h; exact h
  | cons r rest ih =>
    intro s u x h
    simp only [List.foldl_cons]
    refine ih _ u x ?_
    intro hmem
    exact h (mem_userList_removeJobOnce s r u x hmem)

theorem userWF_removeJobOnce (s : JobManager) (id : String) (h : UserWF s) :
    UserWF (removeJobOnce s id) := by
  intro u l hl
  unfold removeJobOnce at hl
  cases hjob : lookupA s.jobs id with
  | none => rw [hjob] at hl; exact h u l hl
  | some job =>
    rw [hjob] at hl
    dsimp only at hl
    cases huj : lookupA s.user_jobs job.user_id with
    | none => rw [huj] at hl; exact h u l hl
    | some l0 =>
      rw [huj] at hl
      dsimp only at hl
      by_cases hu : job.user_id = u
      · subst hu
        rw [lookupA_setA _ _ _ l0 huj] at hl
        cases hl
        exact (h _ l0 huj).erase id
      · rw [lookupA_setA_ne _ _ _ _ hu] at hl
        exact h u l hl

theorem removeJobOnce_kills (s : JobManager) (id : String) (job : JobInfo)
    (hjob : lookupA s.jobs id = some job) (hwf : UserWF s) :
    id ∉ (lookupA (removeJobOnce s id).user_jobs job.user_id).getD [] := by
  unfold removeJobOnce
  rw [hjob]
  dsimp only
  cases huj : lookupA s.user_jobs job.user_id with
  | none =>
    rw [huj]
    simp
  | some l =>
    dsimp only
    rw [lookupA_setA _ _ _ l huj]
    simp only [Option.getD_some]
    intro hmem
    exact (List.Nodup.mem_erase_iff (hwf _ l huj)).1 hmem |>.1 rfl

theorem lookupA_removeJobOnce_ne (s : JobManager) (r id : String) (h : r ≠ id) :
    lookupA (removeJobOnce s r).jobs id = lookupA s.jobs id := by
  rw [removeJobOnce_jobs]
  exact lookupA_eraseA_ne _ _ _ h

theorem foldl_remove_kills (ids : List String) : ∀ (s : JobManager) (id : String)
    (job : JobInfo), ids.Nodup → id ∈ ids → lookupA s.jobs id = some job →
    UserWF s →
    id ∉ (lookupA (ids.foldl removeJobOnce s).user_jobs job.user_id).getD [] := by
  induction ids with
  | nil => intro s id job _ habs; simp at habs
  | cons r rest ih =>
    intro s id job hnd hmem hjob hwf
    simp only [List.nodup_cons] at hnd
    simp only [List.foldl_cons]
    by_cases hid : id = r
    · subst hid
      exact not_mem_userList_fold rest _ _ _
        (removeJobOnce_kills s id job hjob hwf)
    · have hmem' : id ∈ rest := by
        rcases List.mem_cons.1 hmem with h1 | h1
        · exact absurd h1 hid
        · exact h1
      exact ih _ id job hnd.2 hmem'
        ((lookupA_removeJobOnce_ne s r id (fun he => hid he.symm)) ▸ hjob)
        (userWF_removeJobOnce s r hwf)

/-- C10: for any manager state whose job ids are unique and whose
per-user index lists are duplicate-free, the cleanup sweep with cutoff
`now - max_age_hours * 3600` (the first conjunct identifies the
computable cutoff with that expression): returns a count equal to the
number of jobs created strictly before the cutoff; keeps exactly the
jobs created at or after the cutoff, independently of their status (a
queued or processing job past the cutoff is deleted too); and removes
each removed job's id from its owner's per-user index. -/
theorem c10_cleanup_sweep :
    ∀ (jm : JobManager) (now max_age_hours : ℚ),
      (jm.jobs.map Prod.fst).Nodup →
      UserWF jm →
      (qsub now (qmul max_age_hours 3600) = now - max_age_hours * 3600
      ∧ (cleanup_old_jobs jm now max_age_hours).2 =
          (jm.jobs.filter (fun kv =>
            kv.2.created_at < qsub now (qmul max_age_hours 3600))).length
      ∧ (cleanup_old_jobs jm now max_age_hours).1.jobs =
          jm.jobs.filter (fun kv =>
            ¬(kv.2.created_at < qsub now (qmul max_age_hours 3600)))
      ∧ ∀ (id : String) (job : JobInfo),
          lookupA jm.jobs id = some job →
          job.created_at < qsub now (qmul max_age_hours 3600) →
          id ∉ (lookupA ((cleanup_old_jobs jm now max_age_hours).1.user_jobs)
                  job.user_id).getD []) := by
  intro jm now maxh hkeys hwf
  refine ⟨by rw [qsub_eq, qmul_eq], ?_, ?_, ?_⟩
  · simp [cleanup_old_jobs]
  · show (((jm.jobs.filter fun kv =>
        decide (kv.2.created_at < qsub now (qmul maxh 3600))).map (·.1)).foldl
          removeJobOnce jm).jobs = _
    rw [foldl_removeJobOnce_jobs, foldl_eraseA_filter _ _ hkeys]
    apply List.filter_congr
    intro kv hkv
    have hmk := mem_keys_filter jm.jobs
      (fun kv => decide (kv.2.created_at < qsub now (qmul maxh 3600))) kv hkeys hkv
    simp only [decide_eq_decide]
    rw [hmk]
    simp
  · intro id job hjob hlt
    have hmem : (id, job) ∈ jm.jobs := lookupA_mem _ _ _ hjob
    have hidsnd : (((jm.jobs.filter fun kv =>
        decide (kv.2.created_at < qsub now (qmul maxh 3600))).map (·.1))).Nodup :=
      hkeys.sublist ((List.filter_sublist jm.jobs).map Prod.fst)
    have hidmem : id ∈ ((jm.jobs.filter fun kv =>
        decide (kv.2.created_at < qsub now (qmul maxh 3600))).map (·.1)) := by
      refine List.mem_map_of_mem _ (List.mem_filter.2 ⟨hmem, ?_⟩)
      simpa using hlt
    exact foldl_remove_kills _ jm id job hidsnd hidmem hjob hwf

/-- C10 witness: sweeping `jmMixed` at instant 90000 with a 24-hour
retention (cutoff 3600) removes exactly the stale job `"j0"`, keeps
`"j1"`, reports a count of 1, and drops `"j0"` from alice's index. -/
theorem c10_witness :
    (cleanup_old_jobs jmMixed 90000 24).2 = 1
  ∧ (cleanup_old_jobs jmMixed 90000 24).1.jobs = [("j1", jobNewAlice)]
  ∧ "j0" ∉ (lookupA (cleanup_old_jobs jmMixed 90000 24).1.user_jobs "alice").getD [] := by
  have h := c10_cleanup_sweep jmMixed 90000 24 (by decide)
    (by intro u l hl
        simp only [jmMixed, lookupA] at hl
        split at hl
        · cases hl; decide
        · cases hl)
  refine ⟨?_, ?_, ?_⟩
  · rw [h.2.1]; decide
  · rw [h.2.2.1]; decide
  · exact h.2.2.2 "j0" jobOldAlice rfl (by decide)

end Podion
